import Mathlib

/-!
Shallow embedding of the capture-gating / live-analysis core of the
Runova mirror client (quality-gate.js, the fixed app.js, its legacy
variant, and skin-core.js), together with theorems settling the claims
of the specification against it.

Conventions: JS numbers holding millisecond timestamps are modelled as
`Int` (`Date.now()` differences are exact integers), pixel and landmark
arithmetic as `Rat` (the relevant comparisons are exact), and the
single-threaded event loop as explicit step functions over a state
record, driven by lists of events.
-/

/- ===================================================================
   QualityGate (static/mobile_ui/quality-gate.js)
   =================================================================== -/

/-- The three quality signals tracked in `this.qualityStates`. -/
structure Signals where
  lighting : Bool
  pose : Bool
  distance : Bool
deriving DecidableEq, Repr

/-- `lighting && pose && distance`, the `allGreen` local of
`updateAllGreenState`. -/
def Signals.allGreen (s : Signals) : Bool :=
  s.lighting && s.pose && s.distance

/-- `this.state`: `CAMERA_READY → LIVE_QUALITY_CHECKS → ALL_GREEN`. -/
inductive GateState where
  | cameraReady
  | liveQualityChecks
  | allGreen
deriving DecidableEq, Repr

/-- `this.REQUIRED_GREEN_DURATION = 500` (ms). -/
def REQUIRED_GREEN_DURATION : Int := 500

/-- The fields of the `QualityGate` class relevant to the all-green
hysteresis logic. -/
structure QualityGate where
  state : GateState
  allGreenSince : Option Int
  qualityStates : Signals
deriving DecidableEq, Repr

/-- The constructor: `state = 'CAMERA_READY'`, `allGreenSince = null`,
all three quality states `false`. -/
def QualityGate.init : QualityGate :=
  { state := .cameraReady
    allGreenSince := none
    qualityStates := { lighting := false, pose := false, distance := false } }

/-- `updateAllGreenState()`, with `Date.now()` passed in as `now`.
Mirrors quality-gate.js lines 213-253: on all-green, start the timer if
unset, otherwise promote to `ALL_GREEN` once the duration reaches
`REQUIRED_GREEN_DURATION`; on any failing signal, clear the timer and
drop back to `LIVE_QUALITY_CHECKS` if the state was `ALL_GREEN`. -/
def QualityGate.updateAllGreenState (qg : QualityGate) (now : Int) : QualityGate :=
  if qg.qualityStates.allGreen then
    match qg.allGreenSince with
    | none => { qg with allGreenSince := some now }
    | some since =>
      if now - since ≥ REQUIRED_GREEN_DURATION then
        if qg.state ≠ GateState.allGreen then { qg with state := .allGreen } else qg
      else qg
  else
    match qg.allGreenSince with
    | some _ =>
      if qg.state = GateState.allGreen then
        { qg with allGreenSince := none, state := .liveQualityChecks }
      else
        { qg with allGreenSince := none }
    | none => qg

/-- One polling tick of the gate: the caller stores freshly measured
signals into `this.qualityStates` and then calls
`updateAllGreenState()` at time `now`. -/
def QualityGate.feed (qg : QualityGate) (now : Int) (sigs : Signals) : QualityGate :=
  QualityGate.updateAllGreenState { qg with qualityStates := sigs } now

/-- Run a timed sequence of signal updates from the freshly constructed
gate. -/
def processTrace (tr : List (Int × Signals)) : QualityGate :=
  tr.foldl (fun qg p => qg.feed p.1 p.2) QualityGate.init

/-- `isAnalysisAllowed()`: the gate reports the stable all-green
state. -/
def QualityGate.isAnalysisAllowed (qg : QualityGate) : Bool :=
  qg.state = GateState.allGreen

/-- Specification-side bookkeeping: the start time of the trailing run
of all-green updates of a trace (`none` when the last update, if any,
had a failing signal). -/
def trailingGreenStart (tr : List (Int × Signals)) : Option Int :=
  tr.foldl (fun acc p => if p.2.allGreen then some (acc.getD p.1) else none) none

/-- The time of the last update of a trace (0 for the empty trace). -/
def lastTime (tr : List (Int × Signals)) : Int :=
  tr.foldl (fun _ p => p.1) 0

/- ===================================================================
   Coupling invariant for the hysteresis proof
   =================================================================== -/

/-- Unfolding `feed` when the new signals are all green and the timer
is unset: the timer starts now, the state is untouched. -/
theorem feed_green_none (qg : QualityGate) (t : Int) (sigs : Signals)
    (hg : sigs.allGreen = true) (hs : qg.allGreenSince = none) :
    qg.feed t sigs =
      { qg with qualityStates := sigs, allGreenSince := some t } := by
  simp [QualityGate.feed, QualityGate.updateAllGreenState, hg, hs]

/-- Unfolding `feed` when the signals are all green and the timer has
run for at least the required duration: the state becomes `ALL_GREEN`
(whether or not it already was). -/
theorem feed_green_stable (qg : QualityGate) (t since : Int) (sigs : Signals)
    (hg : sigs.allGreen = true) (hs : qg.allGreenSince = some since)
    (hd : t - since ≥ REQUIRED_GREEN_DURATION) :
    qg.feed t sigs =
      { qg with qualityStates := sigs, state := GateState.allGreen } := by
  simp only [QualityGate.feed, QualityGate.updateAllGreenState, hg, hs, if_true,
    if_pos hd]
  by_cases hst : qg.state = GateState.allGreen
  · simp [hst]
  · simp [hst]

/-- Unfolding `feed` when the signals are all green but the timer has
not yet reached the required duration: only the measured signals
change. -/
theorem feed_green_pending (qg : QualityGate) (t since : Int) (sigs : Signals)
    (hg : sigs.allGreen = true) (hs : qg.allGreenSince = some since)
    (hd : ¬ t - since ≥ REQUIRED_GREEN_DURATION) :
    qg.feed t sigs = { qg with qualityStates := sigs } := by
  simp [QualityGate.feed, QualityGate.updateAllGreenState, hg, hs, if_neg hd]

/-- Unfolding `feed` when a signal fails while the timer is set and the
state was `ALL_GREEN`: the timer is cleared and the state drops back to
`LIVE_QUALITY_CHECKS`. -/
theorem feed_red_drop (qg : QualityGate) (t since : Int) (sigs : Signals)
    (hg : sigs.allGreen = false) (hs : qg.allGreenSince = some since)
    (hst : qg.state = GateState.allGreen) :
    qg.feed t sigs =
      { state := GateState.liveQualityChecks, allGreenSince := none,
        qualityStates := sigs } := by
  simp [QualityGate.feed, QualityGate.updateAllGreenState, hg, hs, hst]

/-- Unfolding `feed` when a signal fails while the timer is set and the
state was not `ALL_GREEN`: the timer is cleared, the state is
untouched. -/
theorem feed_red_clear (qg : QualityGate) (t since : Int) (sigs : Signals)
    (hg : sigs.allGreen = false) (hs : qg.allGreenSince = some since)
    (hst : ¬ qg.state = GateState.allGreen) :
    qg.feed t sigs =
      { state := qg.state, allGreenSince := none, qualityStates := sigs } := by
  simp [QualityGate.feed, QualityGate.updateAllGreenState, hg, hs, hst]

/-- Unfolding `feed` when a signal fails while the timer is already
unset: only the measured signals change. -/
theorem feed_red_none (qg : QualityGate) (t : Int) (sigs : Signals)
    (hg : sigs.allGreen = false) (hs : qg.allGreenSince = none) :
    qg.feed t sigs = { qg with qualityStates := sigs } := by
  simp [QualityGate.feed, QualityGate.updateAllGreenState, hg, hs]

/-- One-step analysis of `feed`: everything the induction needs about a
single update, phrased against an arbitrary lower bound `lastT` on past
update times. -/
theorem feed_coupling (qg : QualityGate) (lastT t : Int) (sigs : Signals)
    (hle : lastT ≤ t)
    (hbound : ∀ t0, qg.allGreenSince = some t0 → t0 ≤ lastT)
    (hiff : qg.state = GateState.allGreen ↔
      ∃ t0, qg.allGreenSince = some t0 ∧ t0 + REQUIRED_GREEN_DURATION ≤ lastT) :
    (qg.feed t sigs).allGreenSince =
      (if sigs.allGreen then some (qg.allGreenSince.getD t) else none) ∧
    (∀ t0, (qg.feed t sigs).allGreenSince = some t0 → t0 ≤ t) ∧
    ((qg.feed t sigs).state = GateState.allGreen ↔
      ∃ t0, (qg.feed t sigs).allGreenSince = some t0 ∧
        t0 + REQUIRED_GREEN_DURATION ≤ t) := by
  cases hg : sigs.allGreen with
  | true =>
    cases hs : qg.allGreenSince with
    | none =>
      rw [feed_green_none qg t sigs hg hs]
      simp only [hs, Option.getD_none, Option.some.injEq]
      refine ⟨rfl, fun t0 h => by omega, ?_, ?_⟩
      · intro hstate
        exact absurd (hiff.mp hstate) (by simp [hs])
      · rintro ⟨t0, rfl, hd⟩
        simp only [REQUIRED_GREEN_DURATION] at hd
        omega
    | some since =>
      have hsince : since ≤ lastT := hbound since hs
      by_cases hdur : t - since ≥ REQUIRED_GREEN_DURATION
      · rw [feed_green_stable qg t since sigs hg hs hdur]
        simp only [hs, Option.getD_some, Option.some.injEq]
        refine ⟨rfl, fun t0 h => by omega, ?_⟩
        simp only [true_iff]
        exact ⟨since, rfl, by omega⟩
      · rw [feed_green_pending qg t since sigs hg hs hdur]
        simp only [hs, Option.getD_some, Option.some.injEq]
        refine ⟨rfl, fun t0 h => by omega, ?_⟩
        constructor
        · intro hstate
          rcases hiff.mp hstate with ⟨t0, ht0, hd⟩
          rw [hs] at ht0
          simp only [Option.some.injEq] at ht0
          subst ht0
          omega
        · rintro ⟨t0, rfl, hd⟩
          omega
  | false =>
    cases hs : qg.allGreenSince with
    | none =>
      have hnot : ¬ qg.state = GateState.allGreen := by
        intro hstate
        rcases hiff.mp hstate with ⟨t0, ht0, _⟩
        rw [hs] at ht0
        exact Option.noConfusion ht0
      rw [feed_red_none qg t sigs hg hs]
      simp only [hs]
      refine ⟨rfl, fun t0 h => Option.noConfusion h, ?_⟩
      constructor
      · intro hstate; exact absurd hstate hnot
      · rintro ⟨t0, ht0, _⟩; exact Option.noConfusion ht0
    | some since =>
      by_cases hst : qg.state = GateState.allGreen
      · rw [feed_red_drop qg t since sigs hg hs hst]
        refine ⟨rfl, fun t0 h => Option.noConfusion h, ?_⟩
        constructor
        · intro hstate; exact GateState.noConfusion hstate
        · rintro ⟨t0, ht0, _⟩; exact Option.noConfusion ht0
      · rw [feed_red_clear qg t since sigs hg hs hst]
        refine ⟨rfl, fun t0 h => Option.noConfusion h, ?_⟩
        constructor
        · intro hstate; exact absurd hstate hst
        · rintro ⟨t0, ht0, _⟩; exact Option.noConfusion ht0

/-- The coupling carried along a whole trace: the gate's
`allGreenSince` tracks the trailing all-green run, and its state is
`ALL_GREEN` exactly when that run spans at least the required
duration. -/
theorem trace_coupling (tr : List (Int × Signals)) :
    ∀ (qg : QualityGate) (lastT : Int),
    List.Chain (fun a b => a ≤ b) lastT (tr.map Prod.fst) →
    (∀ t0, qg.allGreenSince = some t0 → t0 ≤ lastT) →
    (qg.state = GateState.allGreen ↔
      ∃ t0, qg.allGreenSince = some t0 ∧ t0 + REQUIRED_GREEN_DURATION ≤ lastT) →
    (tr.foldl (fun q p => q.feed p.1 p.2) qg).allGreenSince =
      tr.foldl (fun acc p => if p.2.allGreen then some (acc.getD p.1) else none)
        qg.allGreenSince ∧
    ((tr.foldl (fun q p => q.feed p.1 p.2) qg).state = GateState.allGreen ↔
      ∃ t0,
        tr.foldl (fun acc p => if p.2.allGreen then some (acc.getD p.1) else none)
          qg.allGreenSince = some t0 ∧
        t0 + REQUIRED_GREEN_DURATION ≤ tr.foldl (fun _ p => p.1) lastT) := by
  induction tr with
  | nil =>
    intro qg lastT _ _ hiff
    exact ⟨rfl, hiff⟩
  | cons p rest ih =>
    intro qg lastT hch hbound hiff
    simp only [List.map_cons, List.chain_cons] at hch
    obtain ⟨hle, hch'⟩ := hch
    obtain ⟨hsince, hbound', hiff'⟩ := feed_coupling qg lastT p.1 p.2 hle hbound hiff
    simp only [List.foldl_cons]
    have := ih (qg.feed p.1 p.2) p.1 hch' hbound' hiff'
    rw [hsince] at this
    exact this

/-- All-true and all-false signal triples, for concrete scenarios. -/
def allTrueSignals : Signals := { lighting := true, pose := true, distance := true }

/-- All signals failing. -/
def allFalseSignals : Signals := { lighting := false, pose := false, distance := false }

/-- The four-sample scenario of the specification: all-false, then
all-true at t = 0 ms, t = 400 ms and t = 600 ms. -/
def scenarioTrace : List (Int × Signals) :=
  [(-100, allFalseSignals), (0, allTrueSignals), (400, allTrueSignals),
    (600, allTrueSignals)]

/-- C3 (confirmed): for every chronologically ordered sequence of
quality-signal updates, the gate reports the stable all-green state
exactly when the trailing run of all-green updates spans at least
`REQUIRED_GREEN_DURATION` (500 ms); an update with any failing signal
clears the timestamp; and the specification's four-sample scenario
yields not-stable, not-stable, not-stable, stable. -/
theorem C3_stability_hysteresis :
    (∀ tr : List (Int × Signals),
      List.Chain' (fun a b => a ≤ b) (tr.map Prod.fst) →
      ((processTrace tr).state = GateState.allGreen ↔
        ∃ t0, trailingGreenStart tr = some t0 ∧
          t0 + REQUIRED_GREEN_DURATION ≤ lastTime tr)) ∧
    (∀ (tr : List (Int × Signals)) (t : Int) (sigs : Signals),
      sigs.allGreen = false →
      (processTrace (tr ++ [(t, sigs)])).allGreenSince = none) ∧
    ((processTrace (scenarioTrace.take 1)).isAnalysisAllowed = false ∧
      (processTrace (scenarioTrace.take 2)).isAnalysisAllowed = false ∧
      (processTrace (scenarioTrace.take 3)).isAnalysisAllowed = false ∧
      (processTrace scenarioTrace).isAnalysisAllowed = true) := by
  refine ⟨?_, ?_, by decide⟩
  · intro tr hch
    cases tr with
    | nil =>
      constructor
      · intro h; exact absurd h (by decide)
      · rintro ⟨t0, ht0, _⟩; exact Option.noConfusion ht0
    | cons p rest =>
      have hchain : List.Chain (fun a b => a ≤ b) p.1 ((p :: rest).map Prod.fst) := by
        simp only [List.map_cons]
        exact List.Chain.cons le_rfl hch
      have hinit1 : ∀ t0, QualityGate.init.allGreenSince = some t0 → t0 ≤ p.1 := by
        intro t0 h; exact Option.noConfusion h
      have hinit2 : QualityGate.init.state = GateState.allGreen ↔
          ∃ t0, QualityGate.init.allGreenSince = some t0 ∧
            t0 + REQUIRED_GREEN_DURATION ≤ p.1 := by
        constructor
        · intro h; exact absurd h (by decide)
        · rintro ⟨t0, ht0, _⟩; exact Option.noConfusion ht0
      obtain ⟨_, hiff⟩ :=
        trace_coupling (p :: rest) QualityGate.init p.1 hchain hinit1 hinit2
      have hlast : (p :: rest).foldl (fun _ q => q.1) p.1 = lastTime (p :: rest) := by
        simp [lastTime]
      rw [hlast] at hiff
      exact hiff
  · intro tr t sigs hg
    have happ : processTrace (tr ++ [(t, sigs)]) = (processTrace tr).feed t sigs := by
      simp [processTrace]
    rw [happ]
    cases hs : (processTrace tr).allGreenSince with
    | none => rw [feed_red_none _ t sigs hg hs]; exact hs
    | some since =>
      by_cases hst : (processTrace tr).state = GateState.allGreen
      · rw [feed_red_drop _ t since sigs hg hs hst]
      · rw [feed_red_clear _ t since sigs hg hs hst]

/-- Concrete instantiation of the hysteresis theorem on the
specification's scenario trace. -/
theorem C3_stability_hysteresis_witness :
    List.Chain' (fun a b => a ≤ b) (scenarioTrace.map Prod.fst) ∧
    ((processTrace scenarioTrace).state = GateState.allGreen ↔
      ∃ t0, trailingGreenStart scenarioTrace = some t0 ∧
        t0 + REQUIRED_GREEN_DURATION ≤ lastTime scenarioTrace) :=
  ⟨by norm_num [scenarioTrace, List.chain'_cons],
    C3_stability_hysteresis.1 scenarioTrace
      (by norm_num [scenarioTrace, List.chain'_cons])⟩

/- ===================================================================
   Frame checks (quality-gate.js, checkLighting / checkPose /
   checkDistance)
   =================================================================== -/

/-- One sampled pixel: the `r`, `g`, `b` bytes read from
`imageData.data` (the alpha byte is skipped by the `i += 4` loop). -/
structure RGB where
  r : Nat
  g : Nat
  b : Nat
deriving DecidableEq, Repr

/-- `v = Math.max(r, g, b)` with each channel divided by 255: the
approximate HSV value channel of one pixel, in [0, 1]. -/
def pixelV (p : RGB) : ℚ :=
  max ((p.r : ℚ) / 255) (max ((p.g : ℚ) / 255) ((p.b : ℚ) / 255))

/-- The running `sum` accumulated by the `checkLighting` loop. -/
def sumV (px : List RGB) : ℚ :=
  (px.map pixelV).sum

/-- The running `sumSq` accumulated by the `checkLighting` loop. -/
def sumSqV (px : List RGB) : ℚ :=
  (px.map (fun p => pixelV p * pixelV p)).sum

/-- `meanV = sum / count`. -/
def meanV (px : List RGB) : ℚ :=
  sumV px / (px.length : ℚ)

/-- The radicand `sumSq / count - meanV * meanV` of
`stdV = Math.sqrt(...)`. -/
def varV (px : List RGB) : ℚ :=
  sumSqV px / (px.length : ℚ) - meanV px * meanV px

/-- `checkLighting(imageData)`: good iff `0.35 < meanV < 0.75` and
`stdV > 0.08`. Since `0.08 ≥ 0`, the source's comparison
`Math.sqrt(varV) > 0.08` is equivalent to `varV > 0.08²`, which keeps
the definition executable over `Rat`; the square-root form is restored
in the theorem about it. -/
def checkLighting (px : List RGB) : Bool :=
  decide ((35 : ℚ) / 100 < meanV px) && decide (meanV px < 75 / 100) &&
    decide (((8 : ℚ) / 100) ^ 2 < varV px)

/-- One normalized face landmark (`p.x`, `p.y`). -/
structure Landmark where
  x : ℚ
  y : ℚ
deriving DecidableEq, Repr

/-- The `maxX - minX` extent of the landmark bounding box computed by
the `checkDistance` loop (0 for an empty list; the loop's `±Infinity`
initialisers reduce to folding from the first landmark). -/
def bboxWidth : List Landmark → ℚ
  | [] => 0
  | p :: rest =>
    rest.foldl (fun m q => max m q.x) p.x - rest.foldl (fun m q => min m q.x) p.x

/-- The `maxY - minY` extent of the landmark bounding box. -/
def bboxHeight : List Landmark → ℚ
  | [] => 0
  | p :: rest =>
    rest.foldl (fun m q => max m q.y) p.y - rest.foldl (fun m q => min m q.y) p.y

/-- The bounding box as a fraction of frame area (landmark coordinates
are normalized to the frame), the quantity the specification sentence
speaks about. -/
def areaFraction (l : List Landmark) : ℚ :=
  bboxWidth l * bboxHeight l

/-- `checkPose(faceLandmarks)`: `false` on `null`/missing or empty
landmarks, `true` otherwise. -/
def checkPose : Option (List Landmark) → Bool
  | none => false
  | some [] => false
  | some (_ :: _) => true

/-- `checkDistance(faceLandmarks)`: `false` on `null`/missing or empty
landmarks; otherwise good iff `width > 0.25 && height > 0.25 &&
width < 0.9 && height < 0.9`. -/
def checkDistance : Option (List Landmark) → Bool
  | none => false
  | some [] => false
  | some (p :: rest) =>
    decide ((25 : ℚ) / 100 < bboxWidth (p :: rest)) &&
      decide ((25 : ℚ) / 100 < bboxHeight (p :: rest)) &&
      decide (bboxWidth (p :: rest) < 9 / 10) &&
      decide (bboxHeight (p :: rest) < 9 / 10)

/-- C6 (confirmed): `checkLighting` passes iff the mean of the
normalized brightness channel lies strictly between 0.35 and 0.75 and
its standard deviation (the square root of the variance radicand)
strictly exceeds 0.08, and any uniform frame fails. -/
theorem C6_lighting_pass_band :
    (∀ px : List RGB, checkLighting px = true ↔
      ((35 : ℝ) / 100 < (meanV px : ℝ) ∧ (meanV px : ℝ) < 75 / 100 ∧
        (8 : ℝ) / 100 < Real.sqrt ((varV px : ℚ) : ℝ))) ∧
    (∀ (px : List RGB) (c : RGB), px ≠ [] → (∀ p ∈ px, p = c) →
      checkLighting px = false) := by
  constructor
  · intro px
    have hsqrt : (8 : ℝ) / 100 < Real.sqrt ((varV px : ℚ) : ℝ) ↔
        ((8 : ℝ) / 100) ^ 2 < ((varV px : ℚ) : ℝ) :=
      Real.lt_sqrt (by norm_num)
    simp only [checkLighting, Bool.and_eq_true, decide_eq_true_eq]
    have c1 : (35 : ℚ) / 100 < meanV px ↔ (35 : ℝ) / 100 < (meanV px : ℝ) := by
      constructor
      · intro h
        have h2 : (((35 : ℚ) / 100 : ℚ) : ℝ) < (meanV px : ℝ) := Rat.cast_lt.mpr h
        push_cast at h2
        exact h2
      · intro h
        rw [show (35 : ℝ) / 100 = (((35 : ℚ) / 100 : ℚ) : ℝ) by push_cast; ring] at h
        exact Rat.cast_lt.mp h
    have c2 : meanV px < 75 / 100 ↔ (meanV px : ℝ) < 75 / 100 := by
      constructor
      · intro h
        have h2 : (meanV px : ℝ) < (((75 : ℚ) / 100 : ℚ) : ℝ) := Rat.cast_lt.mpr h
        push_cast at h2
        exact h2
      · intro h
        rw [show (75 : ℝ) / 100 = (((75 : ℚ) / 100 : ℚ) : ℝ) by push_cast; ring] at h
        exact Rat.cast_lt.mp h
    have c3 : ((8 : ℚ) / 100) ^ 2 < varV px ↔
        (8 : ℝ) / 100 < Real.sqrt ((varV px : ℚ) : ℝ) := by
      rw [hsqrt]
      constructor
      · intro h
        have h2 : ((((8 : ℚ) / 100) ^ 2 : ℚ) : ℝ) < (varV px : ℝ) := Rat.cast_lt.mpr h
        push_cast at h2
        exact h2
      · intro h
        rw [show ((8 : ℝ) / 100) ^ 2 = ((((8 : ℚ) / 100) ^ 2 : ℚ) : ℝ) by
          push_cast; ring] at h
        exact Rat.cast_lt.mp h
    constructor
    · rintro ⟨⟨h1, h2⟩, h3⟩
      exact ⟨c1.mp h1, c2.mp h2, c3.mp h3⟩
    · rintro ⟨h1, h2, h3⟩
      exact ⟨⟨c1.mpr h1, c2.mpr h2⟩, c3.mpr h3⟩
  · intro px c hne hall
    have hmap : px.map pixelV = List.replicate px.length (pixelV c) := by
      have h1 : ∀ b ∈ px.map pixelV, b = pixelV c := by
        intro b hb
        rcases List.mem_map.mp hb with ⟨p, hp, rfl⟩
        rw [hall p hp]
      have h2 := List.eq_replicate_of_mem h1
      rwa [List.length_map] at h2
    have hmapsq : px.map (fun p => pixelV p * pixelV p) =
        List.replicate px.length (pixelV c * pixelV c) := by
      have h1 : ∀ b ∈ px.map (fun p => pixelV p * pixelV p),
          b = pixelV c * pixelV c := by
        intro b hb
        rcases List.mem_map.mp hb with ⟨p, hp, rfl⟩
        rw [hall p hp]
      have h2 := List.eq_replicate_of_mem h1
      rwa [List.length_map] at h2
    have hn : (px.length : ℚ) ≠ 0 := by
      have hpos : 0 < px.length := List.length_pos.mpr hne
      exact Nat.cast_ne_zero.mpr (by omega)
    have hmean : meanV px = pixelV c := by
      rw [meanV, sumV, hmap, List.sum_replicate, nsmul_eq_mul]
      field_simp
    have hvar : varV px = 0 := by
      rw [varV, sumSqV, hmapsq, List.sum_replicate, nsmul_eq_mul, hmean]
      field_simp
    have hlt : ¬ ((8 : ℚ) / 100) ^ 2 < varV px := by
      rw [hvar]; norm_num
    simp [checkLighting, hlt]

/-- Witness for the lighting theorem: a concrete mixed frame passes and
a concrete uniform frame fails. -/
theorem C6_lighting_pass_band_witness :
    (checkLighting [⟨0, 0, 0⟩, ⟨255, 255, 255⟩] = true ↔
      ((35 : ℝ) / 100 < (meanV [⟨0, 0, 0⟩, ⟨255, 255, 255⟩] : ℝ) ∧
        (meanV [⟨0, 0, 0⟩, ⟨255, 255, 255⟩] : ℝ) < 75 / 100 ∧
        (8 : ℝ) / 100 <
          Real.sqrt ((varV [⟨0, 0, 0⟩, ⟨255, 255, 255⟩] : ℚ) : ℝ))) ∧
    ([(⟨128, 128, 128⟩ : RGB)] ≠ [] ∧
      checkLighting [⟨128, 128, 128⟩] = false) :=
  ⟨C6_lighting_pass_band.1 [⟨0, 0, 0⟩, ⟨255, 255, 255⟩],
    by simp,
    C6_lighting_pass_band.2 [⟨128, 128, 128⟩] ⟨128, 128, 128⟩ (by simp)
      (by simp)⟩

/-- `feed` preserves "ALL_GREEN implies the timer is set". -/
theorem feed_state_since (qg : QualityGate) (t : Int) (sigs : Signals)
    (h : qg.state = GateState.allGreen → qg.allGreenSince ≠ none) :
    (qg.feed t sigs).state = GateState.allGreen →
      (qg.feed t sigs).allGreenSince ≠ none := by
  cases hg : sigs.allGreen with
  | false =>
    cases hs : qg.allGreenSince with
    | none =>
      rw [feed_red_none qg t sigs hg hs]
      intro hstate
      exact absurd hs (h hstate)
    | some s =>
      by_cases hst : qg.state = GateState.allGreen
      · rw [feed_red_drop qg t s sigs hg hs hst]
        intro hstate
        exact absurd hstate (by simp)
      · rw [feed_red_clear qg t s sigs hg hs hst]
        intro hstate
        exact absurd hstate hst
  | true =>
    cases hs : qg.allGreenSince with
    | none =>
      rw [feed_green_none qg t sigs hg hs]
      intro _
      simp
    | some s =>
      by_cases hd : t - s ≥ REQUIRED_GREEN_DURATION
      · rw [feed_green_stable qg t s sigs hg hs hd]
        intro _
        simp [hs]
      · rw [feed_green_pending qg t s sigs hg hs hd]
        intro _
        simp [hs]

/-- Along every trace from the initial gate, `ALL_GREEN` implies the
all-green timer is set. -/
theorem processTrace_allGreen_since (tr : List (Int × Signals)) :
    (processTrace tr).state = GateState.allGreen →
      (processTrace tr).allGreenSince ≠ none := by
  suffices h : ∀ qg : QualityGate,
      (qg.state = GateState.allGreen → qg.allGreenSince ≠ none) →
      ((tr.foldl (fun q p => q.feed p.1 p.2) qg).state = GateState.allGreen →
        (tr.foldl (fun q p => q.feed p.1 p.2) qg).allGreenSince ≠ none) by
    exact h QualityGate.init (fun hc => absurd hc (by decide))
  induction tr with
  | nil => intro qg h; exact h
  | cons p rest ih =>
    intro qg h
    exact ih (qg.feed p.1 p.2) (feed_state_since qg p.1 p.2 h)

/-- C8 (confirmed): `checkPose` passes exactly when a non-null,
non-empty landmark set is present; with landmarks unavailable both
`checkPose` and `checkDistance` report fail (they are total functions,
so nothing is thrown); and a gate update whose pose signal fails never
leaves the gate in the stable all-green state. -/
theorem C8_pose_requires_landmarks :
    (∀ lms : Option (List Landmark),
      checkPose lms = true ↔ ∃ l, lms = some l ∧ l ≠ []) ∧
    (checkPose none = false ∧ checkDistance none = false ∧
      checkPose (some []) = false ∧ checkDistance (some []) = false) ∧
    (∀ (tr : List (Int × Signals)) (t : Int) (sigs : Signals),
      sigs.pose = false →
      (processTrace (tr ++ [(t, sigs)])).state ≠ GateState.allGreen) := by
  refine ⟨?_, ⟨rfl, rfl, rfl, rfl⟩, ?_⟩
  · intro lms
    match lms with
    | none => simp [checkPose]
    | some [] => simp [checkPose]
    | some (p :: l) => simp [checkPose]
  · intro tr t sigs hp
    have hg : sigs.allGreen = false := by
      simp [Signals.allGreen, hp]
    have happ : processTrace (tr ++ [(t, sigs)]) = (processTrace tr).feed t sigs := by
      simp [processTrace]
    rw [happ]
    cases hs : (processTrace tr).allGreenSince with
    | none =>
      rw [feed_red_none _ t sigs hg hs]
      intro hstate
      exact processTrace_allGreen_since tr hstate hs
    | some s =>
      by_cases hst : (processTrace tr).state = GateState.allGreen
      · rw [feed_red_drop _ t s sigs hg hs hst]
        simp
      · rw [feed_red_clear _ t s sigs hg hs hst]
        exact hst

/-- Witness for the pose theorem on concrete inputs: a present landmark
set passes, and a no-face update at t = 1000 after a long green run
still blocks the stable state. -/
theorem C8_pose_requires_landmarks_witness :
    (checkPose (some [⟨1/2, 1/2⟩]) = true ↔
      ∃ l, (some [(⟨1/2, 1/2⟩ : Landmark)]) = some l ∧ l ≠ []) ∧
    (processTrace
        ([(0, allTrueSignals), (600, allTrueSignals)] ++
          [(1000, { lighting := true, pose := false, distance := true })])).state ≠
      GateState.allGreen :=
  ⟨C8_pose_requires_landmarks.1 (some [⟨1/2, 1/2⟩]),
    C8_pose_requires_landmarks.2.2 [(0, allTrueSignals), (600, allTrueSignals)]
      1000 { lighting := true, pose := false, distance := true } rfl⟩

/-- The three concrete landmark sets separating the per-dimension check
from any band on the area fraction: a 0.3 × 0.3 box (passes, area
0.09), a 0.5 × 0.2 box (fails, area 0.10) and a 0.45 × 0.45 box
(passes, area 0.2025). -/
def lmSquareSmall : List Landmark := [⟨0, 0⟩, ⟨3/10, 3/10⟩]

/-- The failing 0.5 × 0.2 landmark box. -/
def lmWideFlat : List Landmark := [⟨0, 0⟩, ⟨1/2, 1/5⟩]

/-- The passing 0.45 × 0.45 landmark box. -/
def lmSquareLarge : List Landmark := [⟨0, 0⟩, ⟨9/20, 9/20⟩]

/-- C7 counterexample: no band on the bounding-box area fraction
characterises `checkDistance` — the check passes at area 0.09 and at
area 0.2025 but fails at the in-between area 0.10, because it bounds
width and height separately. -/
theorem C7_no_area_band :
    ¬ ∃ lo hi : ℚ, ∀ l : List Landmark,
      checkDistance (some l) = true ↔
        (lo < areaFraction l ∧ areaFraction l < hi) := by
  rintro ⟨lo, hi, h⟩
  have evalA : checkDistance (some lmSquareSmall) = true := by
    norm_num [checkDistance, lmSquareSmall, bboxWidth, bboxHeight,
      List.foldl_cons, List.foldl_nil, max_def, min_def]
  have evalC : checkDistance (some lmSquareLarge) = true := by
    norm_num [checkDistance, lmSquareLarge, bboxWidth, bboxHeight,
      List.foldl_cons, List.foldl_nil, max_def, min_def]
  have evalB : checkDistance (some lmWideFlat) = false := by
    norm_num [checkDistance, lmWideFlat, bboxWidth, bboxHeight,
      List.foldl_cons, List.foldl_nil, max_def, min_def]
  have areaA : areaFraction lmSquareSmall = 9/100 := by
    norm_num [areaFraction, lmSquareSmall, bboxWidth, bboxHeight,
      List.foldl_cons, List.foldl_nil, max_def, min_def]
  have areaC : areaFraction lmSquareLarge = 81/400 := by
    norm_num [areaFraction, lmSquareLarge, bboxWidth, bboxHeight,
      List.foldl_cons, List.foldl_nil, max_def, min_def]
  have areaB : areaFraction lmWideFlat = 1/10 := by
    norm_num [areaFraction, lmWideFlat, bboxWidth, bboxHeight,
      List.foldl_cons, List.foldl_nil, max_def, min_def]
  have hA := (h lmSquareSmall).mp evalA
  have hC := (h lmSquareLarge).mp evalC
  have hB : ¬ (lo < areaFraction lmWideFlat ∧ areaFraction lmWideFlat < hi) := by
    intro hband
    have := (h lmWideFlat).mpr hband
    rw [evalB] at this
    exact Bool.noConfusion this
  rw [areaA] at hA
  rw [areaC] at hC
  rw [areaB] at hB
  have hlo : lo < 1/10 := lt_trans hA.1 (by norm_num)
  have hhi : (1 : ℚ)/10 < hi := lt_trans (by norm_num) hC.2
  exact hB ⟨hlo, hhi⟩

/-- C7 as amended (proved): for a present, non-empty landmark set,
`checkDistance` passes iff the bounding box's width and height — each a
fraction of the normalized frame — both lie strictly between the
configured minimum 0.25 and maximum 0.9; null or empty landmark sets
fail. -/
theorem C7_distance_band :
    (∀ l : List Landmark, l ≠ [] →
      (checkDistance (some l) = true ↔
        ((25 : ℚ) / 100 < bboxWidth l ∧ bboxWidth l < 9 / 10 ∧
          (25 : ℚ) / 100 < bboxHeight l ∧ bboxHeight l < 9 / 10))) ∧
    checkDistance none = false ∧ checkDistance (some []) = false := by
  refine ⟨?_, rfl, rfl⟩
  intro l hne
  match l with
  | [] => exact absurd rfl hne
  | p :: rest =>
    simp only [checkDistance, Bool.and_eq_true, decide_eq_true_eq]
    tauto

/-- Witness for the amended distance theorem at the 0.3 × 0.3 box. -/
theorem C7_distance_band_witness :
    lmSquareSmall ≠ [] ∧
    (checkDistance (some lmSquareSmall) = true ↔
      ((25 : ℚ) / 100 < bboxWidth lmSquareSmall ∧
        bboxWidth lmSquareSmall < 9 / 10 ∧
        (25 : ℚ) / 100 < bboxHeight lmSquareSmall ∧
        bboxHeight lmSquareSmall < 9 / 10)) :=
  ⟨by simp [lmSquareSmall], C7_distance_band.1 lmSquareSmall (by simp [lmSquareSmall])⟩

/- ===================================================================
   Live-analysis polling loop (the fixed app.js: startLiveAnalysis /
   stopLiveAnalysis; part_000 lines 494-637)
   =================================================================== -/

/-- Options destructured at the top of `startLiveAnalysis`. -/
structure LiveOpts where
  generateAudio : Bool
  hasOnResult : Bool
deriving DecidableEq, Repr

/-- The environment one tick observes: the outcome of
`validateForAnalysis` and of `detectFace`. -/
structure TickEnv where
  valid : Bool
  message : String
  faceDetected : Bool
deriving DecidableEq, Repr

/-- The outcome of one `/youcam/analyze-live` submission. -/
inductive Outcome where
  | success (hasRecommendations : Bool) (hasAudioUrl : Bool)
  | httpError (status : Nat)
  | netException
  | malformedBody
deriving DecidableEq, Repr

/-- Externally observable actions a tick performs, in order. -/
inductive TickAction where
  | validate
  | showValidation (msg : String)
  | hideValidation
  | detectFace
  | captureROI
  | netCall
  | render
  | addProducts
  | playAudio
  | callbackResult
deriving DecidableEq, Repr

/-- The mutable state touched by the live-analysis loop:
`liveAnalysisActive`, whether `liveAnalysisInterval` is scheduled,
the closure-local `frameInFlight`, the shared `analyzingNow` flag,
`frameCounter`, and the number of outstanding network submissions
(implicit in JS as un-settled `fetch` promises). -/
structure LiveState where
  active : Bool
  scheduled : Bool
  frameInFlight : Bool
  analyzingNow : Bool
  frameCounter : Nat
  pending : Nat
deriving DecidableEq, Repr

/-- The state right after a successful `startLiveAnalysis` call:
`liveAnalysisActive = true`, interval scheduled, `frameCounter = 0`,
fresh `frameInFlight = false`. -/
def startState : LiveState :=
  { active := true, scheduled := true, frameInFlight := false,
    analyzingNow := false, frameCounter := 0, pending := 0 }

/-- The `finally` block of the tick handler: `frameInFlight = false;
analyzingNow = false;`. -/
def clearFlags (s : LiveState) : LiveState :=
  { s with frameInFlight := false, analyzingNow := false }

/-- One firing of the `setInterval` callback, up to the point where it
either finishes without a network call or has issued the `fetch`
(which then stays outstanding until a `respond` event). Mirrors the
guards `if (!liveAnalysisActive) return; if (frameInFlight) return;`,
the validation gate, the face-detection gate, and the capture/encode/
submit path. -/
def tick (s : LiveState) (env : TickEnv) : LiveState × List TickAction :=
  if s.active = false then (s, [])
  else if s.frameInFlight then (s, [])
  else
    let s1 := { s with frameInFlight := true, analyzingNow := true }
    if env.valid = false then
      (clearFlags s1, [.validate, .showValidation env.message])
    else if env.faceDetected = false then
      (clearFlags s1, [.validate, .hideValidation, .detectFace])
    else
      ({ s1 with pending := s1.pending + 1, frameCounter := s1.frameCounter + 1 },
        [.validate, .hideValidation, .detectFace, .captureROI, .netCall])

/-- The continuation of a submitting tick once its response settles:
non-2xx responses, network exceptions and malformed bodies are logged
and dropped, a success is rendered, products added, audio played and
the callback invoked; the `finally` block clears `frameInFlight` and
`analyzingNow` on every path. Note the handler never re-checks
`liveAnalysisActive`. -/
def respond (opts : LiveOpts) (s : LiveState) (out : Outcome) :
    LiveState × List TickAction :=
  if s.pending = 0 then (s, [])
  else
    let s0 := { s with pending := s.pending - 1 }
    match out with
    | .httpError _ => (clearFlags s0, [])
    | .netException => (clearFlags s0, [])
    | .malformedBody => (clearFlags s0, [])
    | .success hasRecs hasAudio =>
      (clearFlags s0,
        [TickAction.render] ++
          (if hasRecs then [TickAction.addProducts] else []) ++
          (if opts.generateAudio && hasAudio then [TickAction.playAudio] else []) ++
          (if opts.hasOnResult then [TickAction.callbackResult] else []))

/-- `stopLiveAnalysis()`: when not active it only logs and clears the
shared `analyzingNow` flag; when active it clears `liveAnalysisActive`,
cancels the interval and clears `analyzingNow`. It never touches
`frameInFlight`, `frameCounter` or the outstanding submission. -/
def stopLive (s : LiveState) : LiveState :=
  if s.active = false then { s with analyzingNow := false }
  else { s with active := false, scheduled := false, analyzingNow := false }

/-- Events of one activation of the live loop, interleaved by the
single-threaded event loop. -/
inductive LiveEv where
  | tick (env : TickEnv)
  | respond (out : Outcome)
  | stop
deriving DecidableEq, Repr

/-- One event step. -/
def stepLive (opts : LiveOpts) (s : LiveState) : LiveEv → LiveState × List TickAction
  | .tick env => tick s env
  | .respond out => respond opts s out
  | .stop => (stopLive s, [])

/-- Run a list of events, discarding the emitted actions. -/
def runLive (opts : LiveOpts) (s : LiveState) (evs : List LiveEv) : LiveState :=
  evs.foldl (fun st ev => (stepLive opts st ev).1) s

/-- One firing of the legacy `setInterval` callback of the earlier
`startLiveAnalysis` (part_001 lines 1012-1119): same validation,
face-detection and submit structure, but with no `frameInFlight` guard
at all — every active tick that passes validation issues a fetch, even
while earlier submissions are still outstanding. -/
def tickLegacy (s : LiveState) (env : TickEnv) : LiveState × List TickAction :=
  if s.active = false then (s, [])
  else if env.valid = false then
    (s, [.validate, .showValidation env.message])
  else if env.faceDetected = false then
    (s, [.validate, .hideValidation, .detectFace])
  else
    ({ s with pending := s.pending + 1, frameCounter := s.frameCounter + 1 },
      [.validate, .hideValidation, .detectFace, .captureROI, .netCall])

/-- A tick environment that passes validation and finds a face. -/
def goodEnv : TickEnv :=
  { valid := true, message := "", faceDetected := true }

/-- C1 counterexample: in the legacy loop, a second tick that begins
while the first tick's submission is still outstanding performs
validation, capture and a network call, leaving two submissions
outstanding at once — the claim fails on this cited implementation. -/
theorem C1_legacy_two_in_flight :
    (tickLegacy startState goodEnv).1.pending = 1 ∧
    (tickLegacy (tickLegacy startState goodEnv).1 goodEnv).2 =
      [.validate, .hideValidation, .detectFace, .captureROI, .netCall] ∧
    (tickLegacy (tickLegacy startState goodEnv).1 goodEnv).1.pending = 2 := by
  refine ⟨rfl, rfl, rfl⟩

/-- The at-most-one-in-flight invariant of the rewritten loop. -/
def InFlightInv (s : LiveState) : Prop :=
  s.pending ≤ 1 ∧ (s.pending = 1 → s.frameInFlight = true)

/-- Each event of the rewritten loop preserves the invariant. -/
theorem stepLive_preserves_inv (opts : LiveOpts) (s : LiveState) (ev : LiveEv)
    (h : InFlightInv s) : InFlightInv (stepLive opts s ev).1 := by
  obtain ⟨h1, h2⟩ := h
  cases ev with
  | tick env =>
    simp only [stepLive, tick]
    by_cases ha : s.active = false
    · simp only [ha, if_true]; exact ⟨h1, h2⟩
    · simp only [ha, if_false]
      by_cases hf : s.frameInFlight
      · simp only [hf, if_true]; exact ⟨h1, h2⟩
      · have hp : s.pending = 0 := by
          by_cases h01 : s.pending = 1
          · exact absurd (h2 h01) hf
          · omega
        simp only [hf, if_false]
        by_cases hv : env.valid = false
        · simp only [hv, if_true]
          exact ⟨by simp [clearFlags, hp], by simp [clearFlags, hp]⟩
        · simp only [hv, if_false]
          by_cases hd : env.faceDetected = false
          · simp only [hd, if_true]
            exact ⟨by simp [clearFlags, hp], by simp [clearFlags, hp]⟩
          · simp only [hd, if_false]
            exact ⟨by simp [hp], by simp⟩
  | respond out =>
    simp only [stepLive, respond]
    by_cases hp : s.pending = 0
    · simp only [hp, if_true]; exact ⟨h1, h2⟩
    · simp only [hp, if_false]
      cases out with
      | success hasRecs hasAudio =>
        exact ⟨by simp [clearFlags]; omega, by simp [clearFlags]; omega⟩
      | httpError status =>
        exact ⟨by simp [clearFlags]; omega, by simp [clearFlags]; omega⟩
      | netException =>
        exact ⟨by simp [clearFlags]; omega, by simp [clearFlags]; omega⟩
      | malformedBody =>
        exact ⟨by simp [clearFlags]; omega, by simp [clearFlags]; omega⟩
  | stop =>
    simp only [stepLive, stopLive]
    by_cases ha : s.active = false
    · simp only [ha, if_true]; exact ⟨h1, fun hpend => h2 hpend⟩
    · simp only [ha, if_false]; exact ⟨h1, fun hpend => h2 hpend⟩

/-- The invariant holds in every state reachable from a fresh
activation. -/
theorem runLive_inv (opts : LiveOpts) (evs : List LiveEv) :
    InFlightInv (runLive opts startState evs) := by
  suffices h : ∀ s : LiveState, InFlightInv s → InFlightInv (runLive opts s evs) by
    exact h startState ⟨by simp [startState], by simp [startState]⟩
  induction evs with
  | nil => intro s hs; exact hs
  | cons ev rest ih =>
    intro s hs
    exact ih (stepLive opts s ev).1 (stepLive_preserves_inv opts s ev hs)

/-- C1 as amended (proved): in the rewritten loop of the fixed app.js,
a tick that begins while `frameInFlight` is still set changes nothing
and performs no action (no validation, no capture, no network call),
and along every event sequence of an activation at most one submission
is outstanding. (The legacy variant kept alongside it lacks the guard;
see the counterexample.) -/
theorem C1_at_most_one_in_flight :
    (∀ (s : LiveState) (env : TickEnv), s.frameInFlight = true →
      tick s env = (s, [])) ∧
    (∀ (opts : LiveOpts) (evs : List LiveEv),
      (runLive opts startState evs).pending ≤ 1) := by
  constructor
  · intro s env hf
    simp only [tick, hf]
    by_cases ha : s.active = false
    · simp [ha]
    · simp [ha]
  · intro opts evs
    exact (runLive_inv opts evs).1

/-- Concrete instantiation: a tick firing while a submission from an
earlier tick is outstanding is a no-op, and a fast tick/tick/respond
sequence never has two submissions outstanding. -/
theorem C1_at_most_one_in_flight_witness :
    ((tick startState goodEnv).1.frameInFlight = true ∧
      tick (tick startState goodEnv).1 goodEnv = ((tick startState goodEnv).1, [])) ∧
    (runLive ⟨false, false⟩ startState
      [.tick goodEnv, .tick goodEnv, .respond (.success false false)]).pending ≤ 1 :=
  ⟨⟨rfl, C1_at_most_one_in_flight.1 (tick startState goodEnv).1 goodEnv rfl⟩,
    C1_at_most_one_in_flight.2 ⟨false, false⟩
      [.tick goodEnv, .tick goodEnv, .respond (.success false false)]⟩

/-- C2 (confirmed): whatever the outcome of a tick's submission —
success, non-2xx HTTP response, network exception or malformed body —
the `finally` block leaves `frameInFlight` and `analyzingNow` false and
the submission settled, so a subsequent good tick submits again (the
loop cannot stall). -/
theorem C2_guaranteed_cleanup :
    ∀ (opts : LiveOpts) (s : LiveState) (out : Outcome), s.pending = 1 →
      (respond opts s out).1.frameInFlight = false ∧
      (respond opts s out).1.analyzingNow = false ∧
      (respond opts s out).1.pending = 0 ∧
      (∀ env : TickEnv, (respond opts s out).1.active = true →
        env.valid = true → env.faceDetected = true →
        TickAction.netCall ∈ (tick (respond opts s out).1 env).2) := by
  intro opts s out hp
  have hps : ¬ s.pending = 0 := by omega
  have hstate : (respond opts s out).1.frameInFlight = false ∧
      (respond opts s out).1.analyzingNow = false ∧
      (respond opts s out).1.pending = 0 := by
    simp only [respond, hps, if_false]
    cases out with
    | success hasRecs hasAudio => simp [clearFlags, hp]
    | httpError status => simp [clearFlags, hp]
    | netException => simp [clearFlags, hp]
    | malformedBody => simp [clearFlags, hp]
  refine ⟨hstate.1, hstate.2.1, hstate.2.2, ?_⟩
  intro env hact hv hd
  simp only [tick, hact, hstate.1, hv, hd]
  simp

/-- Concrete instantiation of the cleanup theorem after an HTTP 500. -/
theorem C2_guaranteed_cleanup_witness :
    ((tick startState goodEnv).1.pending = 1 ∧
      (respond ⟨false, false⟩ (tick startState goodEnv).1
        (.httpError 500)).1.frameInFlight = false) ∧
    TickAction.netCall ∈
      (tick (respond ⟨false, false⟩ (tick startState goodEnv).1
        (.httpError 500)).1 goodEnv).2 :=
  ⟨⟨rfl,
    (C2_guaranteed_cleanup ⟨false, false⟩ (tick startState goodEnv).1
      (.httpError 500) rfl).1⟩,
    (C2_guaranteed_cleanup ⟨false, false⟩ (tick startState goodEnv).1
      (.httpError 500) rfl).2.2.2 goodEnv rfl rfl rfl⟩

/-- The stop/respond trace of the discard counterexample: start, one
submitting tick, stop while the submission is outstanding, then the
response arrives carrying recommendations and audio. -/
def stoppedMidFlight : LiveState :=
  stopLive (tick startState goodEnv).1

/-- C5 counterexample: after `stopLiveAnalysis` the active flag is
down, yet when the still-in-flight submission's success response
arrives, the handler still renders it, adds products and plays audio —
the result is not discarded, contradicting the claim's discard
conjunct. -/
theorem C5_result_not_discarded :
    stoppedMidFlight.active = false ∧
    stoppedMidFlight.pending = 1 ∧
    (respond ⟨true, false⟩ stoppedMidFlight (.success true true)).2 =
      [.render, .addProducts, .playAudio] := by
  refine ⟨rfl, rfl, rfl⟩

/-- C5 as amended (proved): calling stop when the loop is not active
leaves every piece of loop state unchanged except that the shared
`analyzingNow` flag is cleared; calling stop while a submission is in
flight is a total step that leaves the outstanding submission and
`frameInFlight` untouched; after stop no tick executes its body; but
the in-flight submission's result is processed normally when it
arrives (rendered, products added, audio played) rather than being
discarded. -/
theorem C5_stop_semantics :
    (∀ s : LiveState, s.active = false →
      stopLive s = { s with analyzingNow := false }) ∧
    (∀ s : LiveState, (stopLive s).pending = s.pending ∧
      (stopLive s).frameInFlight = s.frameInFlight ∧
      (stopLive s).active = false) ∧
    (∀ (s : LiveState) (env : TickEnv), s.active = false → tick s env = (s, [])) ∧
    (∀ (opts : LiveOpts) (s : LiveState) (hasRecs hasAudio : Bool),
      s.pending = 1 →
      TickAction.render ∈ (respond opts s (.success hasRecs hasAudio)).2) := by
  refine ⟨?_, ?_, ?_, ?_⟩
  · intro s ha
    simp [stopLive, ha]
  · intro s
    by_cases ha : s.active = false
    · simp [stopLive, ha]
    · simp only [stopLive, ha, if_false]
      refine ⟨rfl, rfl, rfl⟩
  · intro s env ha
    simp [tick, ha]
  · intro opts s hasRecs hasAudio hp
    have hps : ¬ s.pending = 0 := by omega
    simp [respond, hps]

/-- Concrete instantiation of the stop-semantics theorem on the
mid-flight trace. -/
theorem C5_stop_semantics_witness :
    (stopLive stoppedMidFlight = { stoppedMidFlight with analyzingNow := false }) ∧
    (tick stoppedMidFlight goodEnv = (stoppedMidFlight, [])) ∧
    TickAction.render ∈
      (respond ⟨true, false⟩ stoppedMidFlight (.success true true)).2 :=
  ⟨C5_stop_semantics.1 stoppedMidFlight rfl,
    C5_stop_semantics.2.2.1 stoppedMidFlight goodEnv rfl,
    C5_stop_semantics.2.2.2 ⟨true, false⟩ stoppedMidFlight true true rfl⟩

/- ===================================================================
   Single-shot analyze-now path (the fixed app.js:
   handleAnalyzeSkinClick; part_000 lines 304-396)
   =================================================================== -/

/-- When `performRealAnalysis` is invoked by `handleAnalyzeSkinClick`:
immediately (fatal or missing gate), or at the i-th animation-frame
tick of the wait loop. -/
inductive AnalyzeWhen where
  | immediate
  | atTick (i : Nat)
deriving DecidableEq, Repr

/-- The `requestAnimationFrame` wait loop: each tick observes the time
`Date.now()` and the gate's `allGreen` flag; the first tick seeing
`allGreen`, or seeing `Date.now() - start > 5000`, runs the analysis
and stops the loop. Returns the index of that tick. -/
def gateWaitLoop (start : Int) : List (Int × Bool) → Option Nat
  | [] => none
  | (t, g) :: rest =>
    if g then some 0
    else if t - start > 5000 then some 0
    else (gateWaitLoop start rest).map Nat.succ

/-- `handleAnalyzeSkinClick()`: no-op when `analyzingNow` is already
set or the video element is missing; immediate analysis when the
quality bridge reports fatal or the gate instance is unavailable;
otherwise the badge overlay is shown and the wait loop decides. The
`ticks` list carries the `(Date.now(), state.allGreen)` observations of
the successive animation frames. -/
def handleAnalyzeSkinClick (busy videoPresent fatal qgAvailable : Bool)
    (start : Int) (ticks : List (Int × Bool)) : Option AnalyzeWhen :=
  if busy then none
  else if videoPresent = false then none
  else if fatal then some .immediate
  else if qgAvailable = false then some .immediate
  else (gateWaitLoop start ticks).map AnalyzeWhen.atTick

/-- The wait loop fires exactly at the first tick whose observation is
all-green or past the 5000 ms timeout. -/
theorem gateWaitLoop_first (start : Int) (ticks : List (Int × Bool)) :
    (∀ i : Nat, gateWaitLoop start ticks = some i →
      ∃ h : i < ticks.length,
        ((ticks.get ⟨i, h⟩).2 = true ∨ (ticks.get ⟨i, h⟩).1 - start > 5000) ∧
        ∀ j : Nat, ∀ hj : j < i,
          (ticks.get ⟨j, by omega⟩).2 = false ∧
          ¬ (ticks.get ⟨j, by omega⟩).1 - start > 5000) ∧
    (∀ i : Nat, ∀ h : i < ticks.length,
      ((ticks.get ⟨i, h⟩).2 = true ∨ (ticks.get ⟨i, h⟩).1 - start > 5000) →
      ∃ j : Nat, j ≤ i ∧ gateWaitLoop start ticks = some j) := by
  induction ticks with
  | nil =>
    constructor
    · intro i h; exact Option.noConfusion h
    · intro i h; exact absurd h (by simp)
  | cons p rest ih =>
    obtain ⟨ih1, ih2⟩ := ih
    constructor
    · intro i hi
      by_cases hg : p.2 = true
      · simp only [gateWaitLoop, hg, if_true] at hi
        obtain rfl : (0 : Nat) = i := Option.some.injEq _ _ ▸ (by
          simpa using hi)
        refine ⟨by simp, by simp [hg], ?_⟩
        intro j hj
        omega
      · have hg' : p.2 = false := by
          cases hp2 : p.2
          · rfl
          · exact absurd hp2 hg
        by_cases ht : p.1 - start > 5000
        · simp only [gateWaitLoop, hg', if_false, ht, if_true] at hi
          obtain rfl : (0 : Nat) = i := by simpa using hi
          refine ⟨by simp, by simp [ht], ?_⟩
          intro j hj
          omega
        · cases hrec : gateWaitLoop start rest with
          | none =>
            rw [show gateWaitLoop start (p :: rest) =
              (gateWaitLoop start rest).map Nat.succ by
                simp [gateWaitLoop, hg', ht], hrec] at hi
            exact Option.noConfusion hi
          | some k =>
          rw [show gateWaitLoop start (p :: rest) =
            (gateWaitLoop start rest).map Nat.succ by
              simp [gateWaitLoop, hg', ht], hrec] at hi
          simp only [Option.map_some', Option.some.injEq] at hi
          subst hi
          obtain ⟨hklen, hkprop, hkmin⟩ := ih1 k hrec
          refine ⟨by simpa using Nat.succ_lt_succ hklen, ?_, ?_⟩
          · simpa using hkprop
          · intro j hj
            cases j with
            | zero => exact ⟨hg', ht⟩
            | succ j0 =>
              have hj0 : j0 < k := by omega
              have := hkmin j0 hj0
              simpa using this
    · intro i hlen hprop
      by_cases hg : p.2 = true
      · exact ⟨0, by omega, by simp [gateWaitLoop, hg]⟩
      · have hg' : p.2 = false := by
          cases hp2 : p.2
          · rfl
          · exact absurd hp2 hg
        by_cases ht : p.1 - start > 5000
        · exact ⟨0, by omega, by simp [gateWaitLoop, hg', ht]⟩
        · cases i with
          | zero =>
            simp only [List.get] at hprop
            rcases hprop with hgp | htp
            · exact absurd hgp hg
            · exact absurd htp ht
          | succ i0 =>
            have hlen0 : i0 < rest.length := by simpa using hlen
            have hprop0 : (rest.get ⟨i0, hlen0⟩).2 = true ∨
                (rest.get ⟨i0, hlen0⟩).1 - start > 5000 := by
              simpa using hprop
            obtain ⟨j, hji, hj⟩ := ih2 i0 hlen0 hprop0
            exact ⟨j + 1, by omega, by simp [gateWaitLoop, hg', ht, hj]⟩

/-- C4 (confirmed): on a single analyze-now action (not already busy,
video present), a fatal quality bridge or a missing gate instance leads
to immediate analysis; otherwise the analysis runs at the first
animation-frame tick that observes the stable all-green state or a
clock past the 5000 ms timeout — so whenever some tick observes either
condition, the analysis has been performed at or before that tick, and
the analysis never runs on a tick that observed neither. -/
theorem C4_bounded_wait_then_analyze :
    (∀ (qgAvailable : Bool) (start : Int) (ticks : List (Int × Bool)),
      handleAnalyzeSkinClick false true true qgAvailable start ticks =
        some .immediate) ∧
    (∀ (start : Int) (ticks : List (Int × Bool)),
      handleAnalyzeSkinClick false true false false start ticks =
        some .immediate) ∧
    (∀ (start : Int) (ticks : List (Int × Bool)) (i : Nat)
      (h : i < ticks.length),
      ((ticks.get ⟨i, h⟩).2 = true ∨ (ticks.get ⟨i, h⟩).1 - start > 5000) →
      ∃ j : Nat, j ≤ i ∧
        handleAnalyzeSkinClick false true false true start ticks =
          some (.atTick j)) ∧
    (∀ (start : Int) (ticks : List (Int × Bool)) (j : Nat),
      handleAnalyzeSkinClick false true false true start ticks =
        some (.atTick j) →
      ∃ h : j < ticks.length,
        (ticks.get ⟨j, h⟩).2 = true ∨ (ticks.get ⟨j, h⟩).1 - start > 5000) := by
  refine ⟨?_, ?_, ?_, ?_⟩
  · intro qgAvailable start ticks
    simp [handleAnalyzeSkinClick]
  · intro start ticks
    simp [handleAnalyzeSkinClick]
  · intro start ticks i h hprop
    obtain ⟨j, hji, hj⟩ := (gateWaitLoop_first start ticks).2 i h hprop
    exact ⟨j, hji, by simp [handleAnalyzeSkinClick, hj]⟩
  · intro start ticks j hj
    have hj2 : (gateWaitLoop start ticks).map AnalyzeWhen.atTick =
        some (.atTick j) := by
      simpa [handleAnalyzeSkinClick] using hj
    cases hrec : gateWaitLoop start ticks with
    | none => rw [hrec] at hj2; exact Option.noConfusion hj2
    | some k =>
      rw [hrec] at hj2
      simp only [Option.map_some', Option.some.injEq,
        AnalyzeWhen.atTick.injEq] at hj2
      subst hj2
      obtain ⟨hlen, hprop, _⟩ := (gateWaitLoop_first start ticks).1 k hrec
      exact ⟨hlen, hprop⟩

/-- Concrete instantiation of the analyze-now theorem: fatal bypass,
missing-gate bypass, and the timeout tick at t = 6000 forcing analysis
by the second tick. -/
theorem C4_bounded_wait_then_analyze_witness :
    handleAnalyzeSkinClick false true true false 0 [] = some .immediate ∧
    handleAnalyzeSkinClick false true false false 0 [] = some .immediate ∧
    ∃ j : Nat, j ≤ 1 ∧
      handleAnalyzeSkinClick false true false true 0 [(0, false), (6000, false)] =
        some (.atTick j) :=
  ⟨C4_bounded_wait_then_analyze.1 false 0 [],
    C4_bounded_wait_then_analyze.2.1 0 [],
    C4_bounded_wait_then_analyze.2.2.1 0 [(0, false), (6000, false)] 1
      (by decide) (by decide)⟩

/- ===================================================================
   Voice playback (the fixed app.js: stopCurrentAudio / playVoice;
   part_000 lines 61-100)
   =================================================================== -/

/-- The whitespace characters recognised by JS `String.prototype.trim`:
per ECMA-262, WhiteSpace (tab, vertical tab, form feed, space, no-break
space, BOM, and every Space_Separator code point) together with the
LineTerminator code points (LF, CR, line separator, paragraph
separator). -/
def isJsWhitespace (c : Char) : Bool :=
  c = ' ' || c = '\t' || c = '\n' || c = '\r' || c = '\x0b' || c = '\x0c' ||
    c = '\u00A0' || c = '\uFEFF' || c = '\u1680' ||
    c = '\u2000' || c = '\u2001' || c = '\u2002' || c = '\u2003' ||
    c = '\u2004' || c = '\u2005' || c = '\u2006' || c = '\u2007' ||
    c = '\u2008' || c = '\u2009' || c = '\u200A' ||
    c = '\u2028' || c = '\u2029' || c = '\u202F' || c = '\u205F' ||
    c = '\u3000'

/-- `v.trim()` on the character list of a string. -/
def jsTrim (s : List Char) : List Char :=
  ((s.dropWhile isJsWhitespace).reverse.dropWhile isJsWhitespace).reverse

/-- `stripDataUrlPrefix(dataUrl)` for string input: `indexOf(',')`
followed by `slice(comma + 1)` when a comma exists, the string
unchanged otherwise (`findIdx` returns the length when no comma
occurs, matching `indexOf` returning -1). -/
def stripDataUrlBody (s : List Char) : List Char :=
  let comma := s.findIdx (fun c => c = ',')
  if comma < s.length then s.drop (comma + 1) else s

/-- The JS argument of `analyzeYouCamByBase64`: either not a string at
all or a string given by its characters. -/
inductive JsArg where
  | notString
  | str (chars : List Char)
deriving DecidableEq, Repr

/-- `analyzeYouCamByBase64(imageBase64)` up to the point the network
request is issued: `assertString` throws `BLOCKED: missing
image_base64` for a non-string or a string whose trim is empty —
before `fetchJson` runs — and otherwise the stripped base64 body is
what is submitted as `image_base64` (returned here as `.ok`). -/
def analyzeYouCamByBase64 : JsArg → Except String (List Char)
  | .notString => .error "BLOCKED: missing image_base64"
  | .str s =>
    if (jsTrim s).isEmpty then .error "BLOCKED: missing image_base64"
    else .ok (stripDataUrlBody s)

/-- `trim` is empty exactly when every character is whitespace. -/
theorem jsTrim_eq_nil_iff (s : List Char) :
    jsTrim s = [] ↔ ∀ c ∈ s, isJsWhitespace c = true := by
  rw [jsTrim, List.reverse_eq_nil_iff, List.dropWhile_eq_nil_iff]
  constructor
  · intro h c hc
    have hsplit := List.takeWhile_append_dropWhile (p := isJsWhitespace) (l := s)
    rw [← hsplit] at hc
    rcases List.mem_append.mp hc with htk | hdr
    · exact List.mem_takeWhile_imp htk
    · exact h c (List.mem_reverse.mpr hdr)
  · intro h c hc
    have hdr : c ∈ s.dropWhile isJsWhitespace := List.mem_reverse.mp hc
    exact h c (List.dropWhile_subset isJsWhitespace hdr)

/-- `findIdx` finds the first comma right after a comma-free prefix. -/
theorem findIdx_first_comma (pre rest : List Char) (h : (',' : Char) ∉ pre) :
    (pre ++ (',' : Char) :: rest).findIdx (fun c => c = ',') = pre.length := by
  induction pre with
  | nil => simp [List.findIdx_cons]
  | cons a pre' ih =>
    have ha : (a = ',') = False := by
      simp only [eq_iff_iff, iff_false]
      intro hcomma
      exact h (by simp [hcomma])
    have hpre' : (',' : Char) ∉ pre' := fun hmem => h (by simp [hmem])
    simp [List.findIdx_cons, ha, ih hpre']

/-- `findIdx` runs off the end of a comma-free string. -/
theorem findIdx_no_comma (s : List Char) (h : (',' : Char) ∉ s) :
    s.findIdx (fun c => c = ',') = s.length := by
  induction s with
  | nil => simp
  | cons a s' ih =>
    have ha : (a = ',') = False := by
      simp only [eq_iff_iff, iff_false]
      intro hcomma
      exact h (by simp [hcomma])
    have hs' : (',' : Char) ∉ s' := fun hmem => h (by simp [hmem])
    simp [List.findIdx_cons, ha, ih hs']

/-- C10 (confirmed): `analyzeYouCamByBase64` throws `BLOCKED: missing
image_base64` before any network request exactly when its argument is
not a string or is empty/whitespace-only; a submitted data-URL loses
everything up to and including its first comma; and a comma-free
string is submitted unchanged. -/
theorem C10_base64_guard_and_strip :
    (∀ v : JsArg,
      analyzeYouCamByBase64 v = Except.error "BLOCKED: missing image_base64" ↔
        (v = .notString ∨
          ∃ s, v = .str s ∧ ∀ c ∈ s, isJsWhitespace c = true)) ∧
    (∀ pre rest : List Char, (',' : Char) ∉ pre →
      (∃ c ∈ pre ++ (',' : Char) :: rest, isJsWhitespace c = false) →
      analyzeYouCamByBase64 (.str (pre ++ (',' : Char) :: rest)) =
        Except.ok rest) ∧
    (∀ s : List Char, (',' : Char) ∉ s →
      (∃ c ∈ s, isJsWhitespace c = false) →
      analyzeYouCamByBase64 (.str s) = Except.ok s) := by
  have hnotempty : ∀ s : List Char, (∃ c ∈ s, isJsWhitespace c = false) →
      ¬ (jsTrim s).isEmpty = true := by
    intro s hex he
    obtain ⟨c, hc, hcf⟩ := hex
    have hall := (jsTrim_eq_nil_iff s).mp (by simpa [List.isEmpty_iff] using he)
    rw [hall c hc] at hcf
    exact Bool.noConfusion hcf
  refine ⟨?_, ?_, ?_⟩
  · intro v
    cases v with
    | notString =>
      simp [analyzeYouCamByBase64]
    | str s =>
      by_cases he : (jsTrim s).isEmpty = true
      · have hall := (jsTrim_eq_nil_iff s).mp (by simpa [List.isEmpty_iff] using he)
        simp only [analyzeYouCamByBase64, he, if_true]
        constructor
        · intro _
          exact Or.inr ⟨s, rfl, hall⟩
        · intro _
          trivial
      · simp only [analyzeYouCamByBase64, he, if_false]
        constructor
        · intro hbad
          exact Except.noConfusion hbad
        · rintro (hns | ⟨s2, hs2, hall⟩)
          · exact JsArg.noConfusion hns
          · have hss : s = s2 := by
              injection hs2
            subst hss
            exact absurd ((jsTrim_eq_nil_iff s).mpr hall)
              (by simpa [List.isEmpty_iff] using he)
  · intro pre rest hpre hex
    have hne := hnotempty (pre ++ (',' : Char) :: rest) hex
    have hidx := findIdx_first_comma pre rest hpre
    have hlt : pre.length < (pre ++ (',' : Char) :: rest).length := by
      simp only [List.length_append, List.length_cons]
      omega
    have hdrop : (pre ++ (',' : Char) :: rest).drop (pre.length + 1) = rest := by
      have hassoc : pre ++ (',' : Char) :: rest =
          (pre ++ [(',' : Char)]) ++ rest := by
        simp
      rw [hassoc]
      exact List.drop_left' (by simp)
    simp only [analyzeYouCamByBase64, hne, if_false, stripDataUrlBody, hidx,
      hlt, if_true, hdrop]
    simp
  · intro s hs hex
    have hne := hnotempty s hex
    have hidx := findIdx_no_comma s hs
    have hnlt : ¬ s.findIdx (fun c => c = ',') < s.length := by
      rw [hidx]
      omega
    simp only [analyzeYouCamByBase64, hne, if_false, stripDataUrlBody, hnlt,
      if_false]
    simp

/-- Concrete instantiation: the `data,QUJD` data-URL submits only
`QUJD`, and a plain base64 string is submitted unchanged. -/
theorem C10_base64_guard_and_strip_witness :
    analyzeYouCamByBase64
        (.str (['d', 'a', 't', 'a'] ++ (',' : Char) :: ['Q', 'U', 'J', 'D'])) =
      Except.ok ['Q', 'U', 'J', 'D'] ∧
    analyzeYouCamByBase64 (.str ['Q', 'U', 'J', 'D']) =
      Except.ok ['Q', 'U', 'J', 'D'] :=
  ⟨C10_base64_guard_and_strip.2.1 ['d', 'a', 't', 'a'] ['Q', 'U', 'J', 'D']
      (by decide) (by decide),
    C10_base64_guard_and_strip.2.2 ['Q', 'U', 'J', 'D'] (by decide) (by decide)⟩
